import Mathlib

/-!
Verification of the ecuador-macro data-extraction scripts.

This file gives a shallow embedding of the pure core of the four Python
scripts (`ecuador_imf.py`, `ecuador_worldbank.py`, `ecuador_fred.py`,
`ecuador_run_all.py`) and proves properties of that core.

Modelling conventions:
  * Python dicts are association lists in insertion order; assignment
    `d[k] = v` updates the existing entry in place when the key is present
    and appends otherwise (`dictInsert`).
  * Parsed JSON values are the inductive `Json`; Python `None` and JSON
    `null` are both `Json.null` (Python's json module parses null to None).
  * Python string comparison is lexicographic on code points; it is
    embedded as the executable `pyStrLt`/`pyStrLe` on `String.data`,
    proved equivalent to Mathlib's linear order on `String`.
  * `sorted(...)` is `List.insertionSort` with the `pyStrLe` relation
    (a stable sort, like Python's).
  * Network effects are abstracted as explicit inputs: an HTTP attempt
    oracle `Nat → Attempt α` for the retry loop, and the parsed response
    value for the per-indicator downloaders.
-/

namespace EcuadorMacro

/-! ### Python string order, executable -/

/-- Lexicographic strict order on character lists, by code point; this is
how CPython compares `str` values. Written as a `Bool` function so that it
evaluates in the kernel (Lean's builtin `String.ltb` does not). -/
def strLtB : List Char → List Char → Bool
  | [], [] => false
  | [], _ :: _ => true
  | _ :: _, [] => false
  | a :: as, b :: bs => if a < b then true else if b < a then false else strLtB as bs

/-- Python `a < b` on strings. -/
def pyStrLt (a b : String) : Bool := strLtB a.data b.data

/-- Python `a <= b` on strings (total order: `a <= b` iff `not (b < a)`). -/
def pyStrLe (a b : String) : Bool := !(pyStrLt b a)

theorem strLtB_iff_lex :
    ∀ as bs : List Char, strLtB as bs = true ↔ List.Lex (· < ·) as bs := by
  intro as
  induction as with
  | nil =>
    intro bs
    cases bs with
    | nil =>
      exact iff_of_false (by simp [strLtB]) (List.Lex.not_nil_right _ _)
    | cons b bs =>
      exact iff_of_true (by simp [strLtB]) List.Lex.nil
  | cons a as ih =>
    intro bs
    cases bs with
    | nil =>
      exact iff_of_false (by simp [strLtB]) (List.Lex.not_nil_right _ _)
    | cons b bs =>
      simp only [strLtB]
      by_cases hab : a < b
      · rw [if_pos hab]
        exact iff_of_true rfl (List.Lex.rel hab)
      · by_cases hba : b < a
        · rw [if_neg hab, if_pos hba]
          constructor
          · intro h; exact absurd h (by simp)
          · intro h
            cases h with
            | rel h => exact absurd h hab
            | cons h => exact absurd hba (lt_irrefl _)
        · have hh : a = b := le_antisymm (le_of_not_lt hba) (le_of_not_lt hab)
          subst hh
          rw [if_neg hab, if_neg hab, ih bs]
          exact (List.Lex.cons_iff ..).symm

theorem pyStrLt_iff (a b : String) : pyStrLt a b = true ↔ a < b := by
  rw [String.lt_iff_toList_lt]
  exact strLtB_iff_lex a.data b.data

theorem pyStrLe_iff (a b : String) : pyStrLe a b = true ↔ a ≤ b := by
  unfold pyStrLe
  rw [Bool.not_eq_true']
  rw [← Bool.not_eq_true (pyStrLt b a)]
  rw [pyStrLt_iff]
  exact not_lt

/-- The comparison key relation used with `List.insertionSort` to embed
Python's `sorted(xs, key=f)` for a string-valued key `f`. -/
def keyLe (f : α → String) (x y : α) : Prop := pyStrLe (f x) (f y) = true

instance (f : α → String) : DecidableRel (keyLe f) := by
  intro x y
  unfold keyLe
  infer_instance

instance (f : α → String) : IsTotal α (keyLe f) := by
  constructor
  intro x y
  unfold keyLe
  rw [pyStrLe_iff, pyStrLe_iff]
  exact le_total (f x) (f y)

instance (f : α → String) : IsTrans α (keyLe f) := by
  constructor
  intro x y z hxy hyz
  unfold keyLe at hxy hyz ⊢
  rw [pyStrLe_iff] at hxy hyz ⊢
  exact le_trans hxy hyz

/-- Python's `sorted(xs, key=f)` for a string key: a stable sort by the
lexicographic code-point order, like CPython's. -/
def pySortBy (f : α → String) (l : List α) : List α :=
  List.insertionSort (keyLe f) l

/-- Python's `sorted(xs)` on a list of strings. -/
def pySort (l : List String) : List String := pySortBy id l

/-! ### Python dicts as insertion-ordered association lists -/

/-- Python dict assignment `d[k] = v`: replace the value in place when the
key is already present (keeping its position), append otherwise. -/
def dictInsert [BEq κ] (d : List (κ × ν)) (k : κ) (v : ν) : List (κ × ν) :=
  if (d.lookup k).isSome then
    d.map (fun p => if p.1 == k then (k, v) else p)
  else d ++ [(k, v)]

/-- Build a Python dict by assigning each pair of `l` in order into `d`. -/
def dictOf [BEq κ] (d : List (κ × ν)) (l : List (κ × ν)) : List (κ × ν) :=
  l.foldl (fun acc p => dictInsert acc p.1 p.2) d

/-! ### Parsed JSON values

Python's `json` module parses JSON `null` to `None`, so `Json.null` plays
both roles below. -/

inductive Json where
  | null
  | num (n : Int)
  | str (s : String)
  | arr (xs : List Json)
  | obj (fields : List (String × Json))
deriving Repr

mutual

def Json.beq : Json → Json → Bool
  | .null, .null => true
  | .num a, .num b => a == b
  | .str a, .str b => a == b
  | .arr a, .arr b => Json.beqArr a b
  | .obj a, .obj b => Json.beqObj a b
  | _, _ => false

def Json.beqArr : List Json → List Json → Bool
  | [], [] => true
  | a :: as, b :: bs => Json.beq a b && Json.beqArr as bs
  | _, _ => false

def Json.beqObj : List (String × Json) → List (String × Json) → Bool
  | [], [] => true
  | a :: as, b :: bs => (a.1 == b.1) && Json.beq a.2 b.2 && Json.beqObj as bs
  | _, _ => false

end

instance : BEq Json := ⟨Json.beq⟩

/-- Python truthiness of a parsed JSON value (`if not data: ...`). -/
def truthy : Json → Bool
  | .null => false
  | .num n => n != 0
  | .str s => !s.isEmpty
  | .arr xs => !xs.isEmpty
  | .obj fields => !fields.isEmpty

/-- Python `len` on a parsed JSON container. (On a number or `None` CPython
raises `TypeError`; the scripts only apply `len` to dicts.) -/
def pyLen : Json → Nat
  | .null => 0
  | .num _ => 0
  | .str s => s.length
  | .arr xs => xs.length
  | .obj fields => fields.length

/-- Python `j.get(k, {})` on a parsed JSON object. (On a non-dict CPython
raises `AttributeError`; the scripts only reach this call on dicts.) -/
def pyGet (j : Json) (k : String) : Json :=
  match j with
  | .obj fields => (fields.lookup k).getD (.obj [])
  | _ => .obj []

/-- Is this JSON value Python `None`? -/
def Json.isNull : Json → Bool
  | .null => true
  | _ => false

/-! ### HTTP fetcher retry loop (`get_json` of `ecuador_imf.py` and
`ecuador_worldbank.py`)

One HTTP attempt either raises (non-2xx status or transport error — the
`except` path) or returns a parsed value (the `return` path). The attempt
oracle `fetch : Nat → Attempt α` says what attempt number `i` would do.
For `ecuador_imf.py` the returned value is the parsed JSON; for
`ecuador_worldbank.py` it is the `[metadata, records]` pair when the
response has that shape and Python `None` otherwise (the shape check
happens inside the `try` and returns without retrying), so there `α` is an
`Option` of the pair. -/

inductive Attempt (α : Type) where
  | raise
  | ok (v : α)

/-- One run of the retry loop records the returned value (`none` when the
Python function returns `None` after exhausting retries or falls off the
loop), the `time.sleep` durations in seconds, and how many `FAILED`
warnings were printed. -/
structure FetchRun (α : Type) where
  result : Option α
  sleeps : List Nat
  warnings : Nat
deriving Repr

/-- The body of `get_json` from attempt number `attempt` on, recursing on
the number of attempts still allowed (`remaining = retries - attempt`, so
the Python guard `attempt < retries - 1` is `remaining > 1`):
`for attempt in range(retries): try: ... return r.json() except: if
attempt < retries - 1: time.sleep(2 ** attempt) else: print(FAILED);
return None`. With `remaining = 0` the `for` loop is exhausted and the
function falls off its end, returning Python `None`. -/
def get_json_loop (fetch : Nat → Attempt α) (attempt : Nat) :
    Nat → FetchRun α
  | 0 => ⟨none, [], 0⟩
  | remaining + 1 =>
    match fetch attempt, remaining with
    | .ok v, _ => ⟨some v, [], 0⟩
    | .raise, 0 => ⟨none, [], 1⟩
    | .raise, r + 1 =>
      let rest := get_json_loop fetch (attempt + 1) (r + 1)
      ⟨rest.result, 2 ^ attempt :: rest.sleeps, rest.warnings⟩

/-- `get_json(url, retries)` with the url's network behaviour abstracted
as the attempt oracle. -/
def get_json (fetch : Nat → Attempt α) (retries : Nat) : FetchRun α :=
  get_json_loop fetch 0 retries

/-! ### Shared shapes of the per-provider pipelines

Observation values are only moved around by the scripts, never computed
with, so they are modelled as `Int`. A `Row` is one entry of the `rows`
list built by the panel builders: the Python dict `{"Year": year,
"{label} [{code}]": value-or-empty-string, ...}` is split into its `Year`
entry and the remaining entries in insertion order; a cell holding the
empty string (a missing observation) is `none`. Column names always end
in `]`, so no indicator column can collide with the `"Year"` key. -/

/-- Outcome counters of the per-indicator download loops (`success`,
`empty`, `failed` in both `main` functions). -/
inductive FetchOutcome where
  | success
  | empty
  | failed
deriving Repr, DecidableEq

structure Row where
  year : String
  cells : List (String × Option Int)
deriving Repr, DecidableEq

/-- The panel column name `f"{label} [{code}]"`. -/
def colName (label code : String) : String := label ++ " [" ++ code ++ "]"

/-- The set of periods seen across all downloaded series: `all_years =
set(); for ... in all_data...: all_years.update(year_dict.keys())`,
as a duplicate-free list. -/
def allYears (all_data : List (String × List (String × Int))) : List String :=
  (all_data.flatMap (fun p => p.2.map Prod.fst)).dedup

namespace IMF

/-- `COUNTRY = "ECU"` in `ecuador_imf.py`. -/
def COUNTRY : String := "ECU"

/-- `fetch_indicator_data` of `ecuador_imf.py`. The argument is what
`get_json(f"{BASE}/{code}/{COUNTRY}")` produced: `none` for a failed
request, otherwise the parsed JSON object as an association list (the IMF
API's top level is an object). Returns the Python value
`data["values"].get(code, {}).get(COUNTRY, {})` — note that, unlike the
World Bank downloader, it does not filter the observations at all. -/
def fetch_indicator_data (data : Option (List (String × Json)))
    (code : String) : Json :=
  match data with
  | none => Json.obj []
  | some fields =>
    if fields.isEmpty then Json.obj []
    else
      match fields.lookup "values" with
      | none => Json.obj []
      | some values => pyGet (pyGet values code) COUNTRY

/-- The three-way branch of `main` in `ecuador_imf.py` (lines 83-92):
`if result and len(result) > 0: success ... elif result is not None:
empty ... else: failed`. The argument is the Python value bound to
`result` — a parsed JSON value where, as everywhere in this file,
`Json.null` is Python `None` (`fetch_indicator_data` can return `None`
when the `"ECU"` entry of a response is JSON null, since `.get` with a
default does not replace a present null). The `and` short-circuits, so
`len` is never applied to `None`. -/
def classify (result : Json) : FetchOutcome :=
  if truthy result && decide (0 < pyLen result) then .success
  else if !result.isNull then .empty
  else .failed

/-- `build_panel` of `ecuador_imf.py`: one row per period in
`sorted(all_years)`; per row one cell per indicator in label-sorted order,
assigned into the row dict in that order. -/
def build_panel (all_data : List (String × List (String × Int)))
    (indicators : List (String × String)) : List Row :=
  (pySort (allYears all_data)).map (fun year =>
    { year := year
      cells := dictOf []
        ((pySortBy (fun x => x.2) indicators).map (fun ci =>
          (colName ci.2 ci.1,
           (all_data.lookup ci.1).bind (fun s => s.lookup year)))) })

/-- The `years_available` span of the metadata writer (`ecuador_imf.py`
lines 120-123 and `ecuador_worldbank.py` lines 149-151): `years =
sorted(...keys()); span = f"{years[0]}-{years[-1]}" if years else ""`. -/
def coverageSpan (keys : List String) : String :=
  match pySort keys with
  | [] => ""
  | y :: ys => y ++ "-" ++ ((y :: ys).getLast (List.cons_ne_nil y ys))

end IMF

/-- The spec's `min(period)` over an indicator's periods (Python `min` on
strings: first minimum under lexicographic order). Stated from the spec's
words, for comparison with `IMF.coverageSpan`. -/
def specMinPeriod : List String → Option String
  | [] => none
  | k :: ks => some (ks.foldl (fun a b => if pyStrLe a b then a else b) k)

/-- The spec's `max(period)` over an indicator's periods (Python `max` on
strings: first maximum under lexicographic order). Stated from the spec's
words, for comparison with `IMF.coverageSpan`. -/
def specMaxPeriod : List String → Option String
  | [] => none
  | k :: ks => some (ks.foldl (fun a b => if pyStrLe b a then a else b) k)

namespace WB

/-- One record of a World Bank response processed by the loop in
`fetch_indicator_data` (`ecuador_worldbank.py` lines 63-67): `year =
record.get("date"); value = record.get("value"); if year and value is not
None: result[year] = value`. `.get` on a missing key gives Python `None`,
and a JSON `null` field also parses to `None`, so both are `Json.null`. -/
def addRecord (acc : List (Json × Json)) (record : Json) : List (Json × Json) :=
  match record with
  | .obj fields =>
    let year := (fields.lookup "date").getD .null
    let value := (fields.lookup "value").getD .null
    if truthy year && !value.isNull then dictInsert acc year value else acc
  | _ => acc

/-- `fetch_indicator_data` of `ecuador_worldbank.py`. The argument is what
`get_json` produced: `none` for a failed request or a response that was
not a two-element `[metadata, records]` list, otherwise that pair. The
records of the World Bank API are JSON objects. -/
def fetch_indicator_data (resp : Option (Json × Json)) : List (Json × Json) :=
  match resp with
  | none => []
  | some (_, records) =>
    if !truthy records then []
    else
      match records with
      | .arr rs => rs.foldl addRecord []
      | _ => []

/-- The two-way branch of `main` in `ecuador_worldbank.py` (lines 94-107):
`if result: ... success += 1 ... else: empty += 1`. There is no branch
that increments `failed`. -/
def classify (result : List (Json × Json)) : FetchOutcome :=
  if !result.isEmpty then .success else .empty

/-- The wide-CSV row construction of `main` in `ecuador_worldbank.py`
(lines 117-129): one row per period in `sorted(all_years)`, one cell per
code in `sorted(all_data.keys())` — sorted by code, with the column named
`f"{indicator_info[code]['name']} [{code}]"`. (`indicator_info` has an
entry for every downloaded code, so the lookup default is unreachable.) -/
def build_rows (all_data : List (String × List (String × Int)))
    (indicator_info : List (String × String)) : List Row :=
  (pySort (allYears all_data)).map (fun year =>
    { year := year
      cells := dictOf []
        ((pySort (all_data.map Prod.fst)).map (fun code =>
          (colName ((indicator_info.lookup code).getD "") code,
           (all_data.lookup code).bind (fun s => s.lookup year)))) })

end WB

namespace FRED

/-! The category tree that `crawl_category` walks, with each category's two
fetches already performed: `seriess` is the `(s["id"], s.get("title",
s["id"]))` projection of the series attached to the category, `children`
its child categories. The claim's finite acyclic tree is exactly what this
inductive can represent. -/

mutual

inductive Cat where
  | mk (seriess : List (String × String)) (children : Forest) : Cat

inductive Forest where
  | nil : Forest
  | cons (c : Cat) (f : Forest) : Forest

end

mutual

/-- `crawl_category` of `ecuador_fred.py` acting on the `all_series` dict
`d`: record the series attached to this category (`all_series[s["id"]] =
s.get("title", s["id"])`, in list order), then recurse into the children
in order. -/
def crawl_category (d : List (String × String)) : Cat → List (String × String)
  | .mk ss children => crawl_children (dictOf d ss) children

/-- The `for child in children: crawl_category(child["id"], ...)` loop. -/
def crawl_children (d : List (String × String)) : Forest → List (String × String)
  | .nil => d
  | .cons c f => crawl_children (crawl_category d c) f

end

/-- `discover_ecuador_series` of `ecuador_fred.py`: crawl the whole tree
starting from an empty `all_series` dict. -/
def discover_ecuador_series (root : Cat) : List (String × String) :=
  crawl_category [] root

mutual

/-- All `(id, title)` pairs of the tree in depth-first visit order — the
order in which `crawl_category` performs its dict assignments. -/
def dfsSeries : Cat → List (String × String)
  | .mk ss children => ss ++ dfsSeriesForest children

def dfsSeriesForest : Forest → List (String × String)
  | .nil => []
  | .cons c f => dfsSeries c ++ dfsSeriesForest f

end

/-- `series.dropna()` in `download_series` of `ecuador_fred.py`: a pandas
series indexed by date, with `none` for a NaN (missing) observation;
`dropna` keeps exactly the present values. -/
def dropna (s : List (String × Option Int)) : List (String × Int) :=
  s.filterMap (fun p => match p.2 with
    | some v => some (p.1, v)
    | none => none)

/-- The `data` dict accumulated by `download_series` (lines 140-152): per
series drop NaNs, skip the series if nothing remains (`if len(series) ==
0: continue`), otherwise store it. The argument is what `fred.get_series`
returned for each requested identifier, in request order. -/
def download_data (fetched : List (String × List (String × Option Int))) :
    List (String × List (String × Int)) :=
  fetched.foldl (fun data p =>
    let series := dropna p.2
    if series.isEmpty then data else dictInsert data p.1 series) []

end FRED

namespace RunAll

/-- `count_csvs` of `ecuador_run_all.py`. A directory is `none` when it
does not exist, otherwise the list of its CSV files; a file is its line
count, or `none` when `open` raises (the `except: pass` skips its rows but
`glob` still counted the file). -/
def count_csvs (directory : Option (List (Option Nat))) : Nat × Int :=
  match directory with
  | none => (0, 0)
  | some files =>
    (files.length,
     files.foldl (fun acc f =>
       match f with
       | some lines => acc + ((lines : Int) - 1)
       | none => acc) 0)

/-- Terminal status of one provider pipeline as recorded by `main` of
`ecuador_run_all.py` (lines 47-58). -/
inductive RunStatus where
  | ok
  | error
  | timeout
  | failedExc (msg : String)
deriving Repr, DecidableEq

/-- The three provider output directories scanned by the final audit. -/
structure DataDirs where
  imf : Option (List (Option Nat))
  worldbank : Option (List (Option Nat))
  fred : Option (List (Option Nat))

/-- The final audit summary of `main` in `ecuador_run_all.py` (lines
71-82): one printed line per provider (status, file count, row count from
`count_csvs`), then a `TOTAL` line summing `count_csvs` over the
directories that exist. -/
structure AuditSummary where
  perProvider : List (RunStatus × Nat × Int)
  totalFiles : Nat
  totalRows : Int

def audit (dirs : DataDirs) (imfStatus wbStatus fredStatus : RunStatus) :
    AuditSummary :=
  { perProvider :=
      [(imfStatus, count_csvs dirs.imf),
       (wbStatus, count_csvs dirs.worldbank),
       (fredStatus, count_csvs dirs.fred)]
    totalFiles :=
      (([dirs.imf, dirs.worldbank, dirs.fred].filter Option.isSome).map
        (fun d => (count_csvs d).1)).sum
    totalRows :=
      (([dirs.imf, dirs.worldbank, dirs.fred].filter Option.isSome).map
        (fun d => (count_csvs d).2)).sum }

end RunAll

/-! ### Lemmas about the Python dict model -/

theorem lookup_isSome_iff [BEq κ] [LawfulBEq κ] (d : List (κ × ν)) (k : κ) :
    (d.lookup k).isSome = true ↔ k ∈ d.map Prod.fst := by
  induction d with
  | nil => simp [List.lookup]
  | cons p rest ih =>
    by_cases h : k = p.1
    · subst h
      simp [List.lookup_cons]
    · have hb : (k == p.1) = false := by simp [h]
      rw [List.lookup_cons]
      simp only [hb, List.map_cons, List.mem_cons]
      simp [h, ih]

theorem lookup_eq_none_of_not_mem [BEq κ] [LawfulBEq κ] {d : List (κ × ν)}
    {k : κ} (h : k ∉ d.map Prod.fst) : d.lookup k = none := by
  cases hd : d.lookup k with
  | none => rfl
  | some v =>
    exact absurd ((lookup_isSome_iff d k).mp (by simp [hd])) h

theorem lookup_eq_some_of_mem [BEq κ] [LawfulBEq κ] :
    ∀ {l : List (κ × ν)} {k : κ} {v : ν},
      (l.map Prod.fst).Nodup → (k, v) ∈ l → l.lookup k = some v := by
  intro l
  induction l with
  | nil => intro k v _ h; cases h
  | cons p rest ih =>
    intro k v hnd hmem
    rw [List.map_cons, List.nodup_cons] at hnd
    cases hmem with
    | head => simp [List.lookup_cons]
    | tail _ hmem =>
      have hk : k ∈ rest.map Prod.fst :=
        List.mem_map.mpr ⟨(k, v), hmem, rfl⟩
      have hne : (k == p.1) = false := by
        simp only [beq_eq_false_iff_ne, ne_eq]
        intro hkp
        exact hnd.1 (hkp ▸ hk)
      rw [List.lookup_cons]
      simp only [hne]
      exact ih hnd.2 hmem

theorem dictInsert_map_fst [BEq κ] [LawfulBEq κ] (d : List (κ × ν)) (k : κ) (v : ν) :
    (dictInsert d k v).map Prod.fst =
      if k ∈ d.map Prod.fst then d.map Prod.fst else d.map Prod.fst ++ [k] := by
  unfold dictInsert
  by_cases hs : (d.lookup k).isSome = true
  · rw [if_pos hs, if_pos ((lookup_isSome_iff d k).mp hs), List.map_map]
    apply List.map_congr_left
    intro p _
    by_cases hp : p.1 = k
    · simp [Function.comp, hp]
    · simp [Function.comp, hp]
  · rw [if_neg hs, if_neg (fun hmem => hs ((lookup_isSome_iff d k).mpr hmem))]
    simp

theorem lookup_map_update_self [BEq κ] [LawfulBEq κ] :
    ∀ (d : List (κ × ν)) (k : κ) (v : ν), (d.lookup k).isSome = true →
      (d.map (fun p => if p.1 == k then (k, v) else p)).lookup k = some v := by
  intro d
  induction d with
  | nil => intro k v hs; simp [List.lookup] at hs
  | cons p rest ih =>
    intro k v hs
    by_cases hp : p.1 = k
    · simp only [List.map_cons, hp, beq_self_eq_true, if_true]
      simp [List.lookup_cons]
    · have hb : (p.1 == k) = false := by simp [hp]
      have hb' : (k == p.1) = false := by
        simp only [beq_eq_false_iff_ne, ne_eq]
        exact fun h => hp h.symm
      simp only [List.map_cons, hb]
      rw [if_neg Bool.false_ne_true]
      rw [List.lookup_cons] at hs ⊢
      simp only [hb'] at hs ⊢
      exact ih k v hs

theorem lookup_map_update_ne [BEq κ] [LawfulBEq κ] :
    ∀ (d : List (κ × ν)) (k : κ) (v : ν) (k' : κ), k' ≠ k →
      (d.map (fun p => if p.1 == k then (k, v) else p)).lookup k' = d.lookup k' := by
  intro d
  induction d with
  | nil => intro k v k' _; rfl
  | cons p rest ih =>
    intro k v k' h
    by_cases hp : p.1 = k
    · simp only [List.map_cons, hp, beq_self_eq_true, if_true]
      rw [List.lookup_cons, List.lookup_cons]
      have h1 : (k' == k) = false := by simp [h]
      have h2 : (k' == p.1) = false := by rw [hp]; simp [h]
      simp only [h1, h2]
      exact ih k v k' h
    · have hb : (p.1 == k) = false := by simp [hp]
      simp only [List.map_cons, hb]
      rw [if_neg Bool.false_ne_true]
      rw [List.lookup_cons, List.lookup_cons]
      cases hk' : k' == p.1 with
      | true => rfl
      | false => exact ih k v k' h

theorem dictInsert_lookup_self [BEq κ] [LawfulBEq κ] (d : List (κ × ν)) (k : κ) (v : ν) :
    (dictInsert d k v).lookup k = some v := by
  unfold dictInsert
  by_cases hs : (d.lookup k).isSome = true
  · rw [if_pos hs]
    exact lookup_map_update_self d k v hs
  · rw [if_neg hs]
    have hnone : d.lookup k = none := by
      cases hd : d.lookup k with
      | none => rfl
      | some w => rw [hd] at hs; simp at hs
    rw [List.lookup_append, hnone]
    simp [List.lookup_cons]

theorem dictInsert_lookup_ne [BEq κ] [LawfulBEq κ] (d : List (κ × ν)) (k : κ)
    (v : ν) {k' : κ} (h : k' ≠ k) :
    (dictInsert d k v).lookup k' = d.lookup k' := by
  unfold dictInsert
  by_cases hs : (d.lookup k).isSome = true
  · rw [if_pos hs]
    exact lookup_map_update_ne d k v k' h
  · rw [if_neg hs, List.lookup_append]
    have h1 : (k' == k) = false := by simp [h]
    rw [List.lookup_cons]
    simp only [h1, List.lookup]
    exact Option.or_none

theorem dictOf_nil [BEq κ] (d : List (κ × ν)) : dictOf d [] = d := rfl

theorem dictOf_cons [BEq κ] (d : List (κ × ν)) (p : κ × ν) (l : List (κ × ν)) :
    dictOf d (p :: l) = dictOf (dictInsert d p.1 p.2) l := rfl

theorem dictOf_append [BEq κ] (d : List (κ × ν)) (l₁ l₂ : List (κ × ν)) :
    dictOf d (l₁ ++ l₂) = dictOf (dictOf d l₁) l₂ :=
  List.foldl_append _ _ _ _

theorem dictOf_mem_keys [BEq κ] [LawfulBEq κ] :
    ∀ (l d : List (κ × ν)) (k : κ),
      k ∈ (dictOf d l).map Prod.fst ↔ k ∈ d.map Prod.fst ∨ k ∈ l.map Prod.fst := by
  intro l
  induction l with
  | nil => simp [dictOf_nil]
  | cons p rest ih =>
    intro d k
    rw [dictOf_cons, ih]
    rw [dictInsert_map_fst]
    by_cases hp : p.1 ∈ d.map Prod.fst
    · rw [if_pos hp]
      simp only [List.map_cons, List.mem_cons]
      constructor
      · intro h
        cases h with
        | inl h => exact Or.inl h
        | inr h => exact Or.inr (Or.inr h)
      · intro h
        rcases h with h | h | h
        · exact Or.inl h
        · exact Or.inl (h ▸ hp)
        · exact Or.inr h
    · rw [if_neg hp]
      simp only [List.mem_append, List.mem_singleton, List.map_cons, List.mem_cons]
      tauto

theorem dictOf_nodup_keys [BEq κ] [LawfulBEq κ] :
    ∀ (l d : List (κ × ν)), (d.map Prod.fst).Nodup → ((dictOf d l).map Prod.fst).Nodup := by
  intro l
  induction l with
  | nil => intro d h; exact h
  | cons p rest ih =>
    intro d hd
    rw [dictOf_cons]
    apply ih
    rw [dictInsert_map_fst]
    by_cases hp : p.1 ∈ d.map Prod.fst
    · rw [if_pos hp]; exact hd
    · rw [if_neg hp]
      simp [List.nodup_append, hd, hp]

theorem dictOf_lookup [BEq κ] [LawfulBEq κ] :
    ∀ (l d : List (κ × ν)) (k : κ),
      (dictOf d l).lookup k = (l.reverse.lookup k).or (d.lookup k) := by
  intro l
  induction l with
  | nil => simp [dictOf_nil, List.lookup]
  | cons p rest ih =>
    intro d k
    rw [dictOf_cons, ih]
    have hstep : (dictInsert d p.1 p.2).lookup k = ([p].lookup k).or (d.lookup k) := by
      by_cases hk : k = p.1
      · subst hk
        rw [dictInsert_lookup_self]
        rw [List.lookup_cons]
        simp
      · rw [dictInsert_lookup_ne _ _ _ hk]
        rw [List.lookup_cons]
        have : (k == p.1) = false := by simp [hk]
        simp only [this, List.lookup]
        rfl
    rw [hstep, List.reverse_cons, List.lookup_append]
    cases rest.reverse.lookup k <;> simp [Option.or]

theorem dictOf_eq_append :
    ∀ [BEq κ] [_h : LawfulBEq κ] (l d : List (κ × ν)),
      (l.map Prod.fst).Nodup → (∀ k, k ∈ l.map Prod.fst → d.lookup k = none) →
      dictOf d l = d ++ l := by
  intro _ _ l
  induction l with
  | nil => intro d _ _; simp [dictOf_nil]
  | cons p rest ih =>
    intro d hnd hdisj
    rw [List.map_cons, List.nodup_cons] at hnd
    rw [dictOf_cons]
    have hins : dictInsert d p.1 p.2 = d ++ [p] := by
      unfold dictInsert
      rw [if_neg]
      rw [hdisj p.1 (by simp)]
      simp
    rw [hins, ih (d ++ [p]) hnd.2]
    · simp
    · intro k hk
      rw [List.lookup_append]
      rw [hdisj k (by simp [hk])]
      have hne : (k == p.1) = false := by
        simp only [beq_eq_false_iff_ne, ne_eq]
        intro hkp
        exact hnd.1 (hkp ▸ hk)
      rw [List.lookup_cons]
      simp [hne, List.lookup]

theorem dictOf_eq_self [BEq κ] [LawfulBEq κ] (l : List (κ × ν))
    (h : (l.map Prod.fst).Nodup) : dictOf [] l = l := by
  rw [dictOf_eq_append l [] h (fun k _ => rfl)]
  rfl

/-! ### Lemmas about the Python sort model -/

theorem pySortBy_sorted (f : α → String) (l : List α) :
    (pySortBy f l).Sorted (keyLe f) :=
  List.sorted_insertionSort _ l

theorem pySortBy_perm (f : α → String) (l : List α) : (pySortBy f l).Perm l :=
  List.perm_insertionSort _ l

theorem pySortBy_sorted_le (f : α → String) (l : List α) :
    ((pySortBy f l).map f).Sorted (· ≤ ·) := by
  rw [List.Sorted, List.pairwise_map]
  exact (pySortBy_sorted f l).imp (fun h => (pyStrLe_iff _ _).mp h)

theorem pySort_sorted_le (l : List String) : (pySort l).Sorted (· ≤ ·) :=
  (pySortBy_sorted id l).imp (fun h => (pyStrLe_iff _ _).mp h)

theorem sorted_head_min {β : Type _} [Preorder β] {y : β} {ys : List β}
    (hs : (y :: ys).Sorted (· ≤ ·)) : ∀ x ∈ y :: ys, y ≤ x := by
  intro x hx
  cases hx with
  | head => exact le_refl y
  | tail _ hx => exact List.rel_of_sorted_cons hs x hx

theorem sorted_getLast_max {β : Type _} [Preorder β] :
    ∀ (l : List β), l.Sorted (· ≤ ·) → (h : l ≠ []) → ∀ x ∈ l, x ≤ l.getLast h
  | [], _, h => absurd rfl h
  | [a], _, _ => by
    intro x hx
    rw [List.mem_singleton] at hx
    subst hx
    exact le_refl x
  | a :: b :: l, hs, _ => by
    intro x hx
    have hlast : (a :: b :: l).getLast (by simp) = (b :: l).getLast (by simp) :=
      List.getLast_cons _
    rw [hlast]
    cases hx with
    | head =>
      exact List.rel_of_sorted_cons hs _ (List.getLast_mem _)
    | tail _ hx =>
      exact sorted_getLast_max (b :: l) (List.Sorted.of_cons hs) (by simp) x hx

/-! ### Lemmas about the spec's `min(period)` / `max(period)` -/

theorem specMinPeriod_spec (k : String) (ks : List String) :
    (ks.foldl (fun a b => if pyStrLe a b then a else b) k) ∈ k :: ks ∧
    ∀ x ∈ k :: ks, (ks.foldl (fun a b => if pyStrLe a b then a else b) k) ≤ x := by
  induction ks generalizing k with
  | nil =>
    constructor
    · simp
    · intro x hx
      rw [List.mem_singleton] at hx
      subst hx
      exact le_refl _
  | cons c rest ih =>
    have hfold :
        (c :: rest).foldl (fun a b => if pyStrLe a b then a else b) k
          = rest.foldl (fun a b => if pyStrLe a b then a else b)
              (if pyStrLe k c then k else c) := rfl
    rcases ih (if pyStrLe k c then k else c) with ⟨hmem, hle⟩
    have hacc_k : (if pyStrLe k c then k else c) ≤ k := by
      by_cases hkc : pyStrLe k c = true
      · rw [if_pos hkc]
      · rw [if_neg hkc]
        have : ¬ k ≤ c := fun hh => hkc ((pyStrLe_iff k c).mpr hh)
        exact le_of_not_le this
    have hacc_c : (if pyStrLe k c then k else c) ≤ c := by
      by_cases hkc : pyStrLe k c = true
      · rw [if_pos hkc]
        exact (pyStrLe_iff k c).mp hkc
      · rw [if_neg hkc]
    constructor
    · rw [hfold]
      rcases List.mem_cons.mp hmem with heq | hmem'
      · rw [heq]
        by_cases hkc : pyStrLe k c = true
        · rw [if_pos hkc]; simp
        · rw [if_neg hkc]; simp
      · simp [List.mem_cons, hmem']
    · intro x hx
      rw [hfold]
      rcases List.mem_cons.mp hx with heq | hx'
      · subst heq
        exact le_trans (hle _ (by simp)) hacc_k
      · rcases List.mem_cons.mp hx' with heq | hx''
        · subst heq
          exact le_trans (hle _ (by simp)) hacc_c
        · exact hle x (by simp [hx''])

theorem specMaxPeriod_spec (k : String) (ks : List String) :
    (ks.foldl (fun a b => if pyStrLe b a then a else b) k) ∈ k :: ks ∧
    ∀ x ∈ k :: ks, x ≤ (ks.foldl (fun a b => if pyStrLe b a then a else b) k) := by
  induction ks generalizing k with
  | nil =>
    constructor
    · simp
    · intro x hx
      rw [List.mem_singleton] at hx
      subst hx
      exact le_refl _
  | cons c rest ih =>
    have hfold :
        (c :: rest).foldl (fun a b => if pyStrLe b a then a else b) k
          = rest.foldl (fun a b => if pyStrLe b a then a else b)
              (if pyStrLe c k then k else c) := rfl
    rcases ih (if pyStrLe c k then k else c) with ⟨hmem, hle⟩
    have hacc_k : k ≤ (if pyStrLe c k then k else c) := by
      by_cases hck : pyStrLe c k = true
      · rw [if_pos hck]
      · rw [if_neg hck]
        have : ¬ c ≤ k := fun hh => hck ((pyStrLe_iff c k).mpr hh)
        exact le_of_not_le this
    have hacc_c : c ≤ (if pyStrLe c k then k else c) := by
      by_cases hck : pyStrLe c k = true
      · rw [if_pos hck]
        exact (pyStrLe_iff c k).mp hck
      · rw [if_neg hck]
    constructor
    · rw [hfold]
      rcases List.mem_cons.mp hmem with heq | hmem'
      · rw [heq]
        by_cases hck : pyStrLe c k = true
        · rw [if_pos hck]; simp
        · rw [if_neg hck]; simp
      · simp [List.mem_cons, hmem']
    · intro x hx
      rw [hfold]
      rcases List.mem_cons.mp hx with heq | hx'
      · subst heq
        exact le_trans hacc_k (hle _ (by simp))
      · rcases List.mem_cons.mp hx' with heq | hx''
        · subst heq
          exact le_trans hacc_c (hle _ (by simp))
        · exact hle x (by simp [hx''])

theorem coverageSpan_eq_min_max (keys : List String) (h : keys ≠ []) :
    IMF.coverageSpan keys =
      ((specMinPeriod keys).getD "") ++ "-" ++ ((specMaxPeriod keys).getD "") := by
  cases keys with
  | nil => exact absurd rfl h
  | cons k0 ks =>
    have hperm := pySortBy_perm id (k0 :: ks)
    have hsorted := pySort_sorted_le (k0 :: ks)
    rcases specMinPeriod_spec k0 ks with ⟨hmmem, hmle⟩
    rcases specMaxPeriod_spec k0 ks with ⟨hMmem, hMle⟩
    cases hs : pySort (k0 :: ks) with
    | nil =>
      exfalso
      have hs' : pySortBy id (k0 :: ks) = [] := hs
      have hlen := hperm.length_eq
      rw [hs'] at hlen
      simp at hlen
    | cons y ys =>
      have hspan : IMF.coverageSpan (k0 :: ks)
          = y ++ "-" ++ ((y :: ys).getLast (List.cons_ne_nil y ys)) := by
        unfold IMF.coverageSpan
        rw [hs]
      have hs' : pySortBy id (k0 :: ks) = y :: ys := hs
      rw [hs'] at hperm
      rw [hs] at hsorted
      have hymem : y ∈ k0 :: ks := hperm.mem_iff.mp (by simp)
      have hmmem' : (ks.foldl (fun a b => if pyStrLe a b then a else b) k0)
          ∈ y :: ys := hperm.mem_iff.mpr hmmem
      have hym : y = ks.foldl (fun a b => if pyStrLe a b then a else b) k0 :=
        le_antisymm (sorted_head_min hsorted _ hmmem') (hmle y hymem)
      have hLmem : (y :: ys).getLast (List.cons_ne_nil y ys) ∈ k0 :: ks :=
        hperm.mem_iff.mp (List.getLast_mem _)
      have hMmem' : (ks.foldl (fun a b => if pyStrLe b a then a else b) k0)
          ∈ y :: ys := hperm.mem_iff.mpr hMmem
      have hLM : (y :: ys).getLast (List.cons_ne_nil y ys)
          = ks.foldl (fun a b => if pyStrLe b a then a else b) k0 :=
        le_antisymm (hMle _ hLmem) (sorted_getLast_max _ hsorted _ _ hMmem')
      rw [hspan, hLM, hym]
      rfl

/-! ### Lemmas about the panel builders -/

theorem mem_allYears (all_data : List (String × List (String × Int))) (y : String) :
    y ∈ allYears all_data ↔ ∃ p ∈ all_data, ∃ v, (y, v) ∈ p.2 := by
  unfold allYears
  rw [List.mem_dedup, List.mem_flatMap]
  constructor
  · rintro ⟨p, hp, hy⟩
    rcases List.mem_map.mp hy with ⟨q, hq, hqy⟩
    exact ⟨p, hp, q.2, by rw [← hqy]; exact hq⟩
  · rintro ⟨p, hp, v, hv⟩
    exact ⟨p, hp, List.mem_map.mpr ⟨(y, v), hv, rfl⟩⟩

theorem nodup_allYears (all_data : List (String × List (String × Int))) :
    (allYears all_data).Nodup :=
  List.nodup_dedup _

theorem build_panel_map_year (all_data : List (String × List (String × Int)))
    (indicators : List (String × String)) :
    (IMF.build_panel all_data indicators).map Row.year
      = pySort (allYears all_data) := by
  unfold IMF.build_panel
  rw [List.map_map]
  exact List.map_id _

theorem build_rows_map_year (all_data : List (String × List (String × Int)))
    (indicator_info : List (String × String)) :
    (WB.build_rows all_data indicator_info).map Row.year
      = pySort (allYears all_data) := by
  unfold WB.build_rows
  rw [List.map_map]
  exact List.map_id _

theorem pySort_allYears_sorted_lt (all_data : List (String × List (String × Int))) :
    (pySort (allYears all_data)).Sorted (· < ·) :=
  List.Sorted.lt_of_le (pySort_sorted_le _)
    ((pySortBy_perm id _).symm.nodup (nodup_allYears all_data))

theorem dictOf_map_fst_congr [BEq κ] [LawfulBEq κ] :
    ∀ (l₁ l₂ d₁ d₂ : List (κ × ν)),
      l₁.map Prod.fst = l₂.map Prod.fst → d₁.map Prod.fst = d₂.map Prod.fst →
      (dictOf d₁ l₁).map Prod.fst = (dictOf d₂ l₂).map Prod.fst := by
  intro l₁
  induction l₁ with
  | nil =>
    intro l₂ d₁ d₂ hl hd
    cases l₂ with
    | nil => exact hd
    | cons q l₂ => simp at hl
  | cons p l₁ ih =>
    intro l₂ d₁ d₂ hl hd
    cases l₂ with
    | nil => simp at hl
    | cons q l₂ =>
      simp only [List.map_cons, List.cons.injEq] at hl
      rw [dictOf_cons, dictOf_cons]
      apply ih _ _ _ hl.2
      rw [dictInsert_map_fst, dictInsert_map_fst, hd, hl.1]

/-! ### The crawl is the fold of the depth-first series list -/

mutual

theorem crawl_category_eq_dictOf :
    ∀ (d : List (String × String)) (t : FRED.Cat),
      FRED.crawl_category d t = dictOf d (FRED.dfsSeries t)
  | d, .mk ss ch => by
    rw [FRED.crawl_category, FRED.dfsSeries]
    rw [crawl_children_eq_dictOf (dictOf d ss) ch]
    rw [dictOf_append]

theorem crawl_children_eq_dictOf :
    ∀ (d : List (String × String)) (f : FRED.Forest),
      FRED.crawl_children d f = dictOf d (FRED.dfsSeriesForest f)
  | _, .nil => rfl
  | d, .cons c f => by
    rw [FRED.crawl_children, FRED.dfsSeriesForest]
    rw [crawl_category_eq_dictOf d c]
    rw [crawl_children_eq_dictOf _ f]
    rw [dictOf_append]

end

/-! ### Column lists of the two panel builders -/

/-- The column names of the IMF panel, in the order the row dict is
populated: indicators sorted by label, named `"{label} [{code}]"`. -/
def imfColumns (indicators : List (String × String)) : List String :=
  (pySortBy (fun x => x.2) indicators).map (fun ci => colName ci.2 ci.1)

/-- The column names of the World Bank panel, in the order the row dict is
populated: codes sorted, named `"{name} [{code}]"`. -/
def wbColumns (all_data : List (String × List (String × Int)))
    (indicator_info : List (String × String)) : List String :=
  (pySort (all_data.map Prod.fst)).map
    (fun code => colName ((indicator_info.lookup code).getD "") code)

theorem build_panel_cells (all_data : List (String × List (String × Int)))
    (indicators : List (String × String)) (r : Row)
    (hr : r ∈ IMF.build_panel all_data indicators) :
    r.cells = dictOf []
      ((pySortBy (fun x => x.2) indicators).map (fun ci =>
        (colName ci.2 ci.1, (all_data.lookup ci.1).bind (fun s => s.lookup r.year)))) := by
  unfold IMF.build_panel at hr
  rcases List.mem_map.mp hr with ⟨y, _, hy⟩
  rw [← hy]

theorem build_rows_cells (all_data : List (String × List (String × Int)))
    (indicator_info : List (String × String)) (r : Row)
    (hr : r ∈ WB.build_rows all_data indicator_info) :
    r.cells = dictOf []
      ((pySort (all_data.map Prod.fst)).map (fun code =>
        (colName ((indicator_info.lookup code).getD "") code,
         (all_data.lookup code).bind (fun s => s.lookup r.year)))) := by
  unfold WB.build_rows at hr
  rcases List.mem_map.mp hr with ⟨y, _, hy⟩
  rw [← hy]

/-! ### Unfolding lemmas for the retry loop -/

theorem get_json_loop_ok {fetch : Nat → Attempt α} {a : Nat} {v : α}
    (h : fetch a = .ok v) (n : Nat) :
    get_json_loop fetch a (n + 1) = ⟨some v, [], 0⟩ := by
  simp [get_json_loop, h]

theorem get_json_loop_raise_last {fetch : Nat → Attempt α} {a : Nat}
    (h : fetch a = .raise) :
    get_json_loop fetch a 1 = ⟨none, [], 1⟩ := by
  simp [get_json_loop, h]

theorem get_json_loop_raise_step {fetch : Nat → Attempt α} {a : Nat}
    (h : fetch a = .raise) (n : Nat) :
    get_json_loop fetch a (n + 2) =
      ⟨(get_json_loop fetch (a + 1) (n + 1)).result,
       2 ^ a :: (get_json_loop fetch (a + 1) (n + 1)).sleeps,
       (get_json_loop fetch (a + 1) (n + 1)).warnings⟩ := by
  simp [get_json_loop, h]

theorem get_json_loop_all_raise {fetch : Nat → Attempt α} :
    ∀ (remaining a : Nat), 1 ≤ remaining →
      (∀ i, a ≤ i → i < a + remaining → fetch i = .raise) →
      get_json_loop fetch a remaining =
        ⟨none, (List.range (remaining - 1)).map (fun j => 2 ^ (a + j)), 1⟩
  | 0, _, h, _ => absurd h (by omega)
  | 1, a, _, hall => by
    rw [get_json_loop_raise_last (hall a (le_refl a) (by omega))]
    rfl
  | (n + 2), a, _, hall => by
    rw [get_json_loop_raise_step (hall a (le_refl a) (by omega)) n]
    rw [get_json_loop_all_raise (n + 1) (a + 1) (by omega)
      (fun i hi1 hi2 => hall i (by omega) (by omega))]
    have hsl : (2 ^ a :: List.map (fun j => 2 ^ (a + 1 + j)) (List.range (n + 1 - 1)))
        = List.map (fun j => 2 ^ (a + j)) (List.range (n + 1)) := by
      rw [List.range_succ_eq_map, List.map_cons, List.map_map]
      congr 1
      apply List.map_congr_left
      intro j hj
      show 2 ^ (a + 1 + j) = 2 ^ (a + Nat.succ j)
      congr 1
      omega
    rw [hsl]
    rfl

/-! ### Further helper lemmas used by the claim theorems -/

theorem dictInsert_forall_values [BEq κ] (Q : ν → Prop) (d : List (κ × ν))
    (k : κ) (v : ν) (hd : ∀ p ∈ d, Q p.2) (hv : Q v) :
    ∀ p ∈ dictInsert d k v, Q p.2 := by
  intro p hp
  unfold dictInsert at hp
  split at hp
  · rcases List.mem_map.mp hp with ⟨q, hq, hfq⟩
    by_cases hq1 : (q.1 == k) = true
    · rw [if_pos hq1] at hfq
      rw [← hfq]
      exact hv
    · rw [if_neg hq1] at hfq
      rw [← hfq]
      exact hd q hq
  · rcases List.mem_append.mp hp with hq | hq
    · exact hd p hq
    · rw [List.mem_singleton] at hq
      rw [hq]
      exact hv

theorem wb_foldl_addRecord_no_null :
    ∀ (rs : List Json) (acc : List (Json × Json)),
      (∀ p ∈ acc, p.2 ≠ Json.null) →
      ∀ p ∈ rs.foldl WB.addRecord acc, p.2 ≠ Json.null := by
  intro rs
  induction rs with
  | nil => intro acc hacc; exact hacc
  | cons record rest ih =>
    intro acc hacc
    rw [List.foldl_cons]
    apply ih
    cases record with
    | null => exact hacc
    | num n => exact hacc
    | str s => exact hacc
    | arr xs => exact hacc
    | obj fields =>
      show ∀ p ∈ (if (truthy ((fields.lookup "date").getD .null)
            && !((fields.lookup "value").getD .null).isNull) = true
          then dictInsert acc ((fields.lookup "date").getD .null)
            ((fields.lookup "value").getD .null)
          else acc), p.2 ≠ Json.null
      by_cases hguard :
          (truthy ((fields.lookup "date").getD .null)
            && !((fields.lookup "value").getD .null).isNull) = true
      · rw [if_pos hguard]
        apply dictInsert_forall_values (fun v => v ≠ Json.null) acc _ _ hacc
        rcases Bool.and_eq_true .. |>.mp hguard with ⟨_, hval⟩
        intro hnull
        rw [hnull] at hval
        simp [Json.isNull] at hval
      · rw [if_neg hguard]
        exact hacc

/-! ### Claim theorems -/

/-- C1 (code bug in the source): a per-indicator request failure —
`get_json` returning Python `None` after exhausting its retries — is
classified as 'empty' by the `main` loops of both `ecuador_imf.py` and
`ecuador_worldbank.py`, never as 'failed': `fetch_indicator_data` turns
the `None` into the empty dict `{}` before the caller tests it. The IMF
caller's `failed` branch fires exactly when `result` is Python `None`
(`Json.null`), which `fetch_indicator_data` produces only from a
successful response whose `"ECU"` entry is JSON null — never from a
request failure; the World Bank caller has no branch that increments
`failed` at all. No identifier or reason is recorded for an error report
in either script. -/
theorem download_failure_classified_as_empty :
    (∀ code, IMF.classify (IMF.fetch_indicator_data none code)
        = FetchOutcome.empty) ∧
    (∀ result, IMF.classify result = FetchOutcome.failed ↔ result = Json.null) ∧
    (∀ code, IMF.fetch_indicator_data none code ≠ Json.null) ∧
    WB.classify (WB.fetch_indicator_data none) = FetchOutcome.empty ∧
    (∀ resp, WB.classify (WB.fetch_indicator_data resp) ≠ FetchOutcome.failed) := by
  refine ⟨fun code => rfl, fun result => ?_, fun code h => Json.noConfusion h,
    rfl, fun resp => ?_⟩
  · constructor
    · intro h
      unfold IMF.classify at h
      split at h
      · cases h
      · split at h
        · cases h
        · rename_i hc2
          cases result with
          | null => rfl
          | num n => simp [Json.isNull] at hc2
          | str s => simp [Json.isNull] at hc2
          | arr xs => simp [Json.isNull] at hc2
          | obj fields => simp [Json.isNull] at hc2
    · intro h
      subst h
      rfl
  · unfold WB.classify
    split <;> simp

/-- C2 counterexample: the IMF downloader does not skip null-valued
observations. On a well-formed IMF response whose inner mapping carries a
JSON `null` for 2020, `fetch_indicator_data` returns that mapping
verbatim, null entry included — so its result is not free of null
values. -/
theorem imf_downloader_passes_null_through :
    IMF.fetch_indicator_data
      (some [("values", Json.obj [("NGDP", Json.obj [("ECU",
        Json.obj [("2020", Json.null), ("2021", Json.num 5)])])])]) "NGDP"
    = Json.obj [("2020", Json.null), ("2021", Json.num 5)] := rfl

/-- C2 (amended): the World Bank downloader's mapping contains no entry
whose value is null — records with a null or absent `value` are skipped —
and every entry the FRED downloader keeps after `dropna` corresponds to a
present (non-NaN) observation of the fetched series. The IMF downloader,
by contrast, returns the provider's nested mapping unchanged (see the
counterexample), so only those two providers filter. -/
theorem wb_fred_downloaders_skip_null_values :
    (∀ resp p, p ∈ WB.fetch_indicator_data resp → p.2 ≠ Json.null) ∧
    (∀ (s : List (String × Option Int)) p, p ∈ FRED.dropna s →
      (p.1, some p.2) ∈ s) := by
  constructor
  · intro resp p hp
    unfold WB.fetch_indicator_data at hp
    match resp with
    | none => cases hp
    | some (meta, records) =>
      simp only at hp
      split at hp
      · cases hp
      · split at hp
        · exact wb_foldl_addRecord_no_null _ [] (fun q hq => by cases hq) p hp
        · cases hp
  · intro s p hp
    unfold FRED.dropna at hp
    rcases List.mem_filterMap.mp hp with ⟨a, ha, hfa⟩
    match hval : a.2 with
    | none => rw [hval] at hfa; cases hfa
    | some v =>
      rw [hval] at hfa
      simp only [Option.some.injEq] at hfa
      have h1 : p.1 = a.1 := by rw [← hfa]
      have h2 : p.2 = v := by rw [← hfa]
      rw [h1, h2, ← hval]
      exact ha

/-- Witness for the C2 theorem at concrete inputs: a World Bank response
with one kept record, and a FRED series with one present observation. -/
theorem wb_fred_downloaders_skip_null_values_witness :
    ((Json.str "2021", Json.num 7) ∈ WB.fetch_indicator_data
      (some (Json.null, Json.arr
        [Json.obj [("date", Json.str "2020"), ("value", Json.null)],
         Json.obj [("date", Json.str "2021"), ("value", Json.num 7)]]))) ∧
    (Json.num 7 ≠ Json.null) ∧
    (("d1", (3 : Int)) ∈ FRED.dropna [("d1", some 3), ("d2", none)]) ∧
    (("d1", some (3 : Int)) ∈ [("d1", some (3 : Int)), ("d2", none)]) := by
  have hmem : (Json.str "2021", Json.num 7) ∈ WB.fetch_indicator_data
      (some (Json.null, Json.arr
        [Json.obj [("date", Json.str "2020"), ("value", Json.null)],
         Json.obj [("date", Json.str "2021"), ("value", Json.num 7)]])) := by
    show (Json.str "2021", Json.num 7) ∈ [(Json.str "2021", Json.num 7)]
    exact List.mem_singleton.mpr rfl
  have hmem2 : ("d1", (3 : Int)) ∈ FRED.dropna [("d1", some 3), ("d2", none)] := by
    show ("d1", (3 : Int)) ∈ [("d1", (3 : Int))]
    exact List.mem_singleton.mpr rfl
  exact ⟨hmem,
    wb_fred_downloaders_skip_null_values.1 _ _ hmem,
    hmem2,
    wb_fred_downloaders_skip_null_values.2 _ _ hmem2⟩

/-- C3 counterexample: the claim quantifies over every `retries ≥ 1`, but
with `retries = 1` and an attempt oracle that raises on the first two
attempts and would succeed on the third, `get_json` never makes a third
attempt: it returns `None` instead of the successful result. -/
theorem get_json_third_attempt_never_made_cx :
    (fun n => if n = 2 then Attempt.ok (42 : Nat) else .raise) 0 = .raise ∧
    (fun n => if n = 2 then Attempt.ok (42 : Nat) else .raise) 1 = .raise ∧
    (fun n => if n = 2 then Attempt.ok (42 : Nat) else .raise) 2 = .ok 42 ∧
    (1 : Nat) ≥ 1 ∧
    (get_json (fun n => if n = 2 then Attempt.ok (42 : Nat) else .raise) 1).result
      = none :=
  ⟨rfl, rfl, rfl, le_refl 1, rfl⟩

/-- C3 (amended): for `retries ≥ 3` (the default is 3), a fetch failing
its first two attempts and succeeding on the third yields the successful
result, after backoff sleeps of `2^0 = 1` and `2^1 = 2` seconds; for
`retries ≥ 1`, a fetch failing all attempts yields `None`, logs exactly
one warning, and sleeps `2^0, ..., 2^(retries-2)` seconds between the
failed attempts. For `retries < 3` the third attempt is never reached. -/
theorem get_json_retry_behavior (fetch : Nat → Attempt α) (retries : Nat) :
    (∀ v, 3 ≤ retries → fetch 0 = .raise → fetch 1 = .raise → fetch 2 = .ok v →
      get_json fetch retries = ⟨some v, [1, 2], 0⟩) ∧
    (1 ≤ retries → (∀ i, i < retries → fetch i = .raise) →
      get_json fetch retries =
        ⟨none, (List.range (retries - 1)).map (fun j => 2 ^ j), 1⟩) := by
  constructor
  · intro v h3 h0 h1 h2
    rcases Nat.exists_eq_add_of_le h3 with ⟨k, hk⟩
    subst hk
    show get_json_loop fetch 0 (3 + k) = _
    have e1 : 3 + k = (k + 1) + 2 := by omega
    rw [e1]
    rw [get_json_loop_raise_step h0]
    have e2 : (k + 1) + 1 = k + 2 := by omega
    rw [e2]
    rw [get_json_loop_raise_step h1]
    rw [get_json_loop_ok h2]
    rfl
  · intro hr hall
    show get_json_loop fetch 0 retries = _
    rw [get_json_loop_all_raise retries 0 hr
      (fun i hi0 hilt => hall i (by omega))]
    simp

/-- Witness for the C3 theorem: both branches at `retries = 3`, with a
fail-fail-succeed oracle and an always-failing oracle. -/
theorem get_json_retry_behavior_witness :
    (3 : Nat) ≤ 3 ∧ (1 : Nat) ≤ 3 ∧
    get_json (fun n => if n = 2 then Attempt.ok (42 : Nat) else .raise) 3
      = ⟨some 42, [1, 2], 0⟩ ∧
    get_json (fun _ => (Attempt.raise : Attempt Nat)) 3 = ⟨none, [1, 2], 1⟩ := by
  refine ⟨le_refl 3, by omega, ?_, ?_⟩
  · exact (get_json_retry_behavior _ 3).1 42 (le_refl 3) rfl rfl rfl
  · have h := (get_json_retry_behavior (fun _ => (Attempt.raise : Attempt Nat)) 3).2
      (by omega) (fun i _ => rfl)
    rw [h]
    rfl

/-- C9: the orchestrator's grand-total row count is the sum of the
per-provider row counts printed in the audit table, whatever terminal
status each pipeline reported — both totals are computed from the output
directories alone by `count_csvs`, with a missing directory contributing
zero. -/
theorem audit_total_rows_eq_sum (dirs : RunAll.DataDirs)
    (imfStatus wbStatus fredStatus : RunAll.RunStatus) :
    (RunAll.audit dirs imfStatus wbStatus fredStatus).totalRows =
      ((RunAll.audit dirs imfStatus wbStatus fredStatus).perProvider.map
        (fun p => p.2.2)).sum := by
  unfold RunAll.audit
  rcases dirs with ⟨imf, wb, fred⟩
  rcases imf with _ | imf <;> rcases wb with _ | wb <;> rcases fred with _ | fred <;>
    simp [RunAll.count_csvs]

/-- C7: on any finite category tree, the crawler's mapping keys are
duplicate-free, they are exactly the identifiers occurring in the tree (so
their number is the number K of distinct identifiers, however duplicates
are spread across branches), and the label stored for an identifier is the
one from its last visit in depth-first order (last write wins). -/
theorem crawler_dedups_by_identifier (t : FRED.Cat) :
    ((FRED.discover_ecuador_series t).map Prod.fst).Nodup ∧
    (∀ sid, sid ∈ (FRED.discover_ecuador_series t).map Prod.fst ↔
        sid ∈ (FRED.dfsSeries t).map Prod.fst) ∧
    (FRED.discover_ecuador_series t).length
      = ((FRED.dfsSeries t).map Prod.fst).dedup.length ∧
    (∀ sid, (FRED.discover_ecuador_series t).lookup sid
      = (FRED.dfsSeries t).reverse.lookup sid) := by
  have hd : FRED.discover_ecuador_series t = dictOf [] (FRED.dfsSeries t) :=
    crawl_category_eq_dictOf [] t
  have hnodup : ((dictOf ([] : List (String × String)) (FRED.dfsSeries t)).map
      Prod.fst).Nodup :=
    dictOf_nodup_keys _ [] (by simp)
  refine ⟨hd ▸ hnodup, fun sid => ?_, ?_, fun sid => ?_⟩
  · rw [hd, dictOf_mem_keys]
    simp
  · rw [hd]
    have hperm : ((dictOf ([] : List (String × String)) (FRED.dfsSeries t)).map
        Prod.fst).Perm ((FRED.dfsSeries t).map Prod.fst).dedup := by
      rw [List.perm_ext_iff_of_nodup hnodup (List.nodup_dedup _)]
      intro a
      rw [dictOf_mem_keys, List.mem_dedup]
      simp
    calc (dictOf ([] : List (String × String)) (FRED.dfsSeries t)).length
        = ((dictOf ([] : List (String × String)) (FRED.dfsSeries t)).map
            Prod.fst).length := (List.length_map _ _).symm
      _ = ((FRED.dfsSeries t).map Prod.fst).dedup.length := hperm.length_eq
  · rw [hd, dictOf_lookup]
    exact Option.or_none

/-- C8: the metadata `years_available` span is the empty string when there
are no periods, and `"{min(period)}-{max(period)}"` (Python `min`/`max`
over the period strings) when there are some. -/
theorem years_available_is_min_max_span :
    IMF.coverageSpan [] = "" ∧
    (∀ keys : List String, keys ≠ [] →
      IMF.coverageSpan keys =
        ((specMinPeriod keys).getD "") ++ "-" ++ ((specMaxPeriod keys).getD "")) :=
  ⟨rfl, coverageSpan_eq_min_max⟩

/-- Witness for the C8 theorem at the spec's example periods
[2001, 2003, 2010]: the span evaluates to exactly "2001-2010". -/
theorem years_available_is_min_max_span_witness :
    (["2001", "2003", "2010"] : List String) ≠ [] ∧
    IMF.coverageSpan ["2001", "2003", "2010"] =
      ((specMinPeriod ["2001", "2003", "2010"]).getD "") ++ "-" ++
        ((specMaxPeriod ["2001", "2003", "2010"]).getD "") ∧
    IMF.coverageSpan ["2001", "2003", "2010"] = "2001-2010" :=
  ⟨by simp,
   years_available_is_min_max_span.2 ["2001", "2003", "2010"] (by simp),
   by decide⟩

/-- C5: the panel builders of both providers emit one row per distinct
period, in strictly ascending (string) order, and the row periods are
exactly those occurring in some downloaded series — no other period ever
appears. -/
theorem panel_rows_are_sorted_period_union
    (all_data : List (String × List (String × Int)))
    (indicators indicator_info : List (String × String)) :
    ((IMF.build_panel all_data indicators).map Row.year).Sorted (· < ·) ∧
    (∀ y, y ∈ (IMF.build_panel all_data indicators).map Row.year ↔
        ∃ p ∈ all_data, ∃ v, (y, v) ∈ p.2) ∧
    ((WB.build_rows all_data indicator_info).map Row.year).Sorted (· < ·) ∧
    (∀ y, y ∈ (WB.build_rows all_data indicator_info).map Row.year ↔
        ∃ p ∈ all_data, ∃ v, (y, v) ∈ p.2) := by
  rw [build_panel_map_year, build_rows_map_year]
  exact ⟨pySort_allYears_sorted_lt all_data,
    fun y => ((pySortBy_perm id _).mem_iff).trans (mem_allYears all_data y),
    pySort_allYears_sorted_lt all_data,
    fun y => ((pySortBy_perm id _).mem_iff).trans (mem_allYears all_data y)⟩

/-- C4 counterexample: the World Bank panel orders its columns by
indicator code, not by label. With codes A, B carrying names Z, A, the
single row's columns come out as ["Z [A]", "A [B]"], although in
ascending label order "A [B]" would precede "Z [A]". -/
theorem wb_columns_sorted_by_code_not_label_cx :
    WB.build_rows [("A", [("2020", 1)]), ("B", [("2020", 2)])]
        [("A", "Z"), ("B", "A")]
      = [⟨"2020", [("Z [A]", some 1), ("A [B]", some 2)]⟩] ∧
    pyStrLt "A [B]" "Z [A]" = true :=
  ⟨by decide, by decide⟩

/-- C4 (amended): panel columns are named `"{label} [{code}]"` in both
builders; the IMF builder orders them by ascending label, while the World
Bank builder orders them by ascending code (when the resulting column
names are distinct, each row's columns are exactly those lists). -/
theorem panel_column_naming_and_order :
    (∀ all_data indicators (r : Row),
      r ∈ IMF.build_panel all_data indicators →
      (imfColumns indicators).Nodup →
      r.cells.map Prod.fst = imfColumns indicators) ∧
    (∀ indicators : List (String × String),
      ((pySortBy (fun x => x.2) indicators).map (fun x => x.2)).Sorted (· ≤ ·)) ∧
    (∀ all_data indicator_info (r : Row),
      r ∈ WB.build_rows all_data indicator_info →
      (wbColumns all_data indicator_info).Nodup →
      r.cells.map Prod.fst = wbColumns all_data indicator_info) ∧
    (∀ all_data : List (String × List (String × Int)),
      (pySort (all_data.map Prod.fst)).Sorted (· ≤ ·)) := by
  refine ⟨?_, fun indicators => pySortBy_sorted_le _ indicators, ?_,
    fun all_data => pySort_sorted_le _⟩
  · intro all_data indicators r hr hnd
    rw [build_panel_cells all_data indicators r hr]
    have hkeys : ((pySortBy (fun x => x.2) indicators).map (fun ci =>
        (colName ci.2 ci.1,
         (all_data.lookup ci.1).bind (fun s => s.lookup r.year)))).map Prod.fst
        = imfColumns indicators := by
      rw [List.map_map]
      rfl
    rw [dictOf_eq_self _ (by rw [hkeys]; exact hnd), hkeys]
  · intro all_data indicator_info r hr hnd
    rw [build_rows_cells all_data indicator_info r hr]
    have hkeys : ((pySort (all_data.map Prod.fst)).map (fun code =>
        (colName ((indicator_info.lookup code).getD "") code,
         (all_data.lookup code).bind (fun s => s.lookup r.year)))).map Prod.fst
        = wbColumns all_data indicator_info := by
      rw [List.map_map]
      rfl
    rw [dictOf_eq_self _ (by rw [hkeys]; exact hnd), hkeys]

/-- Witness for the C4 theorem: IMF columns at a concrete input are
label-sorted, WB columns code-sorted. -/
theorem panel_column_naming_and_order_witness :
    ((⟨"2020", [("A [B]", some 2), ("Z [A]", some 1)]⟩ : Row)
      ∈ IMF.build_panel [("A", [("2020", 1)]), ("B", [("2020", 2)])]
          [("A", "Z"), ("B", "A")]) ∧
    (imfColumns [("A", "Z"), ("B", "A")]).Nodup ∧
    (⟨"2020", [("A [B]", some 2), ("Z [A]", some 1)]⟩ : Row).cells.map Prod.fst
      = imfColumns [("A", "Z"), ("B", "A")] ∧
    ((⟨"2020", [("Z [A]", some 1), ("A [B]", some 2)]⟩ : Row)
      ∈ WB.build_rows [("A", [("2020", 1)]), ("B", [("2020", 2)])]
          [("A", "Z"), ("B", "A")]) ∧
    (wbColumns [("A", [("2020", 1)]), ("B", [("2020", 2)])]
        [("A", "Z"), ("B", "A")]).Nodup ∧
    (⟨"2020", [("Z [A]", some 1), ("A [B]", some 2)]⟩ : Row).cells.map Prod.fst
      = wbColumns [("A", [("2020", 1)]), ("B", [("2020", 2)])]
          [("A", "Z"), ("B", "A")] := by
  refine ⟨by decide, by decide, ?_, by decide, by decide, ?_⟩
  · exact panel_column_naming_and_order.1
      [("A", [("2020", 1)]), ("B", [("2020", 2)])] [("A", "Z"), ("B", "A")]
      (⟨"2020", [("A [B]", some 2), ("Z [A]", some 1)]⟩ : Row)
      (by decide) (by decide)
  · exact panel_column_naming_and_order.2.2.1
      [("A", [("2020", 1)]), ("B", [("2020", 2)])] [("A", "Z"), ("B", "A")]
      (⟨"2020", [("Z [A]", some 1), ("A [B]", some 2)]⟩ : Row)
      (by decide) (by decide)

/-- C6: a panel cell holds exactly the looked-up observation: the cell for
(period, indicator) is `some obs` where `obs` is the observation looked up
in the input mapping — so the cell renders as the empty string (`none`)
precisely when the pair has no observation, and an observation of zero is
kept as zero, never blanked. Holds for both builders whenever the column
names are distinct. -/
theorem panel_cell_iff_observation :
    (∀ all_data indicators (r : Row) code label,
      r ∈ IMF.build_panel all_data indicators → (code, label) ∈ indicators →
      (imfColumns indicators).Nodup →
      r.cells.lookup (colName label code)
        = some ((all_data.lookup code).bind (fun s => s.lookup r.year))) ∧
    (∀ all_data indicator_info (r : Row) code,
      r ∈ WB.build_rows all_data indicator_info →
      code ∈ all_data.map Prod.fst →
      (wbColumns all_data indicator_info).Nodup →
      r.cells.lookup (colName ((indicator_info.lookup code).getD "") code)
        = some ((all_data.lookup code).bind (fun s => s.lookup r.year))) := by
  constructor
  · intro all_data indicators r code label hr hmem hnd
    rw [build_panel_cells all_data indicators r hr]
    have hkeys : ((pySortBy (fun x => x.2) indicators).map (fun ci =>
        (colName ci.2 ci.1,
         (all_data.lookup ci.1).bind (fun s => s.lookup r.year)))).map Prod.fst
        = imfColumns indicators := by
      rw [List.map_map]
      rfl
    rw [dictOf_eq_self _ (by rw [hkeys]; exact hnd)]
    apply lookup_eq_some_of_mem (by rw [hkeys]; exact hnd)
    apply List.mem_map.mpr
    exact ⟨(code, label), (pySortBy_perm (fun x => x.2) indicators).mem_iff.mpr hmem, rfl⟩
  · intro all_data indicator_info r code hr hmem hnd
    rw [build_rows_cells all_data indicator_info r hr]
    have hkeys : ((pySort (all_data.map Prod.fst)).map (fun code =>
        (colName ((indicator_info.lookup code).getD "") code,
         (all_data.lookup code).bind (fun s => s.lookup r.year)))).map Prod.fst
        = wbColumns all_data indicator_info := by
      rw [List.map_map]
      rfl
    rw [dictOf_eq_self _ (by rw [hkeys]; exact hnd)]
    apply lookup_eq_some_of_mem (by rw [hkeys]; exact hnd)
    apply List.mem_map.mpr
    exact ⟨code, (pySortBy_perm id _).mem_iff.mpr hmem, rfl⟩

/-- Witness for the C6 theorem: in a concrete IMF panel, indicator B's
cell for 2001 keeps its observed zero (`some (some 0)`), and in a
concrete WB panel, indicator A's cell for 2003 is empty (`some none`)
because A has no 2003 observation. -/
theorem panel_cell_iff_observation_witness :
    ((⟨"2001", [("Alpha [A]", some 2), ("Zeta [B]", some 0)]⟩ : Row)
      ∈ IMF.build_panel [("B", [("2001", 0), ("2003", 5)]), ("A", [("2001", 2)])]
          [("B", "Zeta"), ("A", "Alpha")]) ∧
    (("B", "Zeta") ∈ [("B", "Zeta"), ("A", "Alpha")]) ∧
    (imfColumns [("B", "Zeta"), ("A", "Alpha")]).Nodup ∧
    (⟨"2001", [("Alpha [A]", some 2), ("Zeta [B]", some 0)]⟩ : Row).cells.lookup
        (colName "Zeta" "B") = some (some 0) ∧
    ((⟨"2003", [("Alpha [A]", none), ("Zeta [B]", some 5)]⟩ : Row)
      ∈ WB.build_rows [("B", [("2001", 0), ("2003", 5)]), ("A", [("2001", 2)])]
          [("B", "Zeta"), ("A", "Alpha")]) ∧
    ("A" ∈ ([("B", [("2001", 0), ("2003", 5)]), ("A", [("2001", 2)])].map
        (Prod.fst (β := List (String × Int))))) ∧
    (wbColumns [("B", [("2001", 0), ("2003", 5)]), ("A", [("2001", 2)])]
        [("B", "Zeta"), ("A", "Alpha")]).Nodup ∧
    (⟨"2003", [("Alpha [A]", none), ("Zeta [B]", some 5)]⟩ : Row).cells.lookup
        (colName (([("B", "Zeta"), ("A", "Alpha")].lookup "A").getD "") "A")
      = some none := by
  refine ⟨by decide, by decide, by decide, ?_, by decide, by decide, by decide, ?_⟩
  · have h := panel_cell_iff_observation.1
      [("B", [("2001", 0), ("2003", 5)]), ("A", [("2001", 2)])]
      [("B", "Zeta"), ("A", "Alpha")]
      (⟨"2001", [("Alpha [A]", some 2), ("Zeta [B]", some 0)]⟩ : Row)
      "B" "Zeta" (by decide) (by decide) (by decide)
    rw [h]
    rfl
  · have h := panel_cell_iff_observation.2
      [("B", [("2001", 0), ("2003", 5)]), ("A", [("2001", 2)])]
      [("B", "Zeta"), ("A", "Alpha")]
      (⟨"2003", [("Alpha [A]", none), ("Zeta [B]", some 5)]⟩ : Row)
      "A" (by decide) (by decide) (by decide)
    rw [h]
    rfl

/-- C10 counterexample: "one key per indicator" can fail. Two distinct
indicators whose label/code combinations format to the same column name
`"a [b] [c]"` produce a single indicator column, because the second dict
assignment overwrites the first. -/
theorem imf_panel_column_collision_cx :
    (IMF.build_panel [("c", [("2020", 1)])]
        [("c", "a [b]"), ("b] [c", "a")]).map (fun r => r.cells.map Prod.fst)
      = [["a [b] [c]"]] ∧
    ([("c", "a [b]"), ("b] [c", "a")] : List (String × String)).length = 2 :=
  ⟨by decide, rfl⟩

/-- C10 (amended): all rows of one IMF panel share exactly the same key
list — `"Year"` followed by the column names in population order — so the
CSV header taken from the first row covers every row; and when the
formatted column names are distinct there is exactly one key per kept
indicator, namely `"{label} [{code}]"` in label order. -/
theorem imf_panel_rows_uniform_keys :
    (∀ all_data indicators (r₁ r₂ : Row),
      r₁ ∈ IMF.build_panel all_data indicators →
      r₂ ∈ IMF.build_panel all_data indicators →
      "Year" :: r₁.cells.map Prod.fst = "Year" :: r₂.cells.map Prod.fst) ∧
    (∀ all_data indicators (r : Row),
      r ∈ IMF.build_panel all_data indicators →
      (imfColumns indicators).Nodup →
      "Year" :: r.cells.map Prod.fst = "Year" :: imfColumns indicators) := by
  constructor
  · intro all_data indicators r₁ r₂ hr₁ hr₂
    rw [build_panel_cells all_data indicators r₁ hr₁,
        build_panel_cells all_data indicators r₂ hr₂]
    have hfst : (dictOf [] ((pySortBy (fun x => x.2) indicators).map (fun ci =>
        (colName ci.2 ci.1,
         (all_data.lookup ci.1).bind (fun s => s.lookup r₁.year))))).map Prod.fst
        = (dictOf [] ((pySortBy (fun x => x.2) indicators).map (fun ci =>
        (colName ci.2 ci.1,
         (all_data.lookup ci.1).bind (fun s => s.lookup r₂.year))))).map Prod.fst := by
      apply dictOf_map_fst_congr _ _ [] []
      · rw [List.map_map, List.map_map]
        apply List.map_congr_left
        intro ci _
        rfl
      · rfl
    rw [hfst]
  · intro all_data indicators r hr hnd
    rw [build_panel_cells all_data indicators r hr]
    have hkeys : ((pySortBy (fun x => x.2) indicators).map (fun ci =>
        (colName ci.2 ci.1,
         (all_data.lookup ci.1).bind (fun s => s.lookup r.year)))).map Prod.fst
        = imfColumns indicators := by
      rw [List.map_map]
      rfl
    rw [dictOf_eq_self _ (by rw [hkeys]; exact hnd), hkeys]

/-- Witness for the C10 theorem at a concrete two-row panel. -/
theorem imf_panel_rows_uniform_keys_witness :
    ((⟨"2001", [("Alpha [A]", some 2), ("Zeta [B]", some 0)]⟩ : Row)
      ∈ IMF.build_panel [("B", [("2001", 0), ("2003", 5)]), ("A", [("2001", 2)])]
          [("B", "Zeta"), ("A", "Alpha")]) ∧
    ((⟨"2003", [("Alpha [A]", none), ("Zeta [B]", some 5)]⟩ : Row)
      ∈ IMF.build_panel [("B", [("2001", 0), ("2003", 5)]), ("A", [("2001", 2)])]
          [("B", "Zeta"), ("A", "Alpha")]) ∧
    "Year" :: (⟨"2001", [("Alpha [A]", some 2), ("Zeta [B]", some 0)]⟩ : Row).cells.map
        Prod.fst
      = "Year" :: (⟨"2003", [("Alpha [A]", none), ("Zeta [B]", some 5)]⟩ : Row).cells.map
        Prod.fst ∧
    (imfColumns [("B", "Zeta"), ("A", "Alpha")]).Nodup ∧
    "Year" :: (⟨"2001", [("Alpha [A]", some 2), ("Zeta [B]", some 0)]⟩ : Row).cells.map
        Prod.fst
      = "Year" :: imfColumns [("B", "Zeta"), ("A", "Alpha")] := by
  refine ⟨by decide, by decide, ?_, by decide, ?_⟩
  · exact imf_panel_rows_uniform_keys.1
      [("B", [("2001", 0), ("2003", 5)]), ("A", [("2001", 2)])]
      [("B", "Zeta"), ("A", "Alpha")]
      (⟨"2001", [("Alpha [A]", some 2), ("Zeta [B]", some 0)]⟩ : Row)
      (⟨"2003", [("Alpha [A]", none), ("Zeta [B]", some 5)]⟩ : Row)
      (by decide) (by decide)
  · exact imf_panel_rows_uniform_keys.2
      [("B", [("2001", 0), ("2003", 5)]), ("A", [("2001", 2)])]
      [("B", "Zeta"), ("A", "Alpha")]
      (⟨"2001", [("Alpha [A]", some 2), ("Zeta [B]", some 0)]⟩ : Row)
      (by decide) (by decide)

/-- C6 counterexample: with two distinct indicators whose column names
format identically ("a [b] [c]"), the indicator `"b] [c"` has no
observation at 2020, yet the row cell under its column name holds the
other indicator's value 1 — the cell is not empty although the (period,
indicator) pair had no observation. -/
theorem imf_panel_cell_collision_cx :
    ((IMF.build_panel [("c", [("2020", 1)])]
        [("c", "a [b]"), ("b] [c", "a")]).map
      (fun r => r.cells.lookup (colName "a" "b] [c"))) = [some (some 1)] ∧
    (List.lookup "b] [c" [("c", [("2020", (1 : Int))])]) = none :=
  ⟨by decide, rfl⟩
